import Mathlib

/-!
Verification of the sentinel-file watch engine of bigman-antivirus.

The definitions below are a shallow embedding of `src/honey_files.rs` and of
the event-toggle logic of `src/gui.rs` (lines 498-509).  Paths are modelled
as `String`; path-component operations (Rust's `Path::file_name` and
`Path::extension`) are modelled structurally over the character list of the
string.  Filesystem facts needed by the script-handler invoker (existence of
the handler file, exit status of the spawned child) are supplied by an
oracle structure `ScriptFS`.  The watch-engine loop is modelled as a trace
function over the finite list of notification batches delivered by the OS.
-/

/-- Event types that can be monitored (honey_files.rs lines 14-23). -/
inductive EventType where
  | Read
  | Write
  | Execute
  | Access
  | Modify
  | Create
  | Delete
deriving DecidableEq, Repr, Fintype

/-- Canonical display label (honey_files.rs lines 26-36). -/
def EventType.as_str : EventType → String
  | .Read => "Read"
  | .Write => "Write"
  | .Execute => "Execute"
  | .Access => "Access"
  | .Modify => "Modify"
  | .Create => "Create"
  | .Delete => "Delete"

/-- Enumeration of all variants in declaration order (honey_files.rs lines 38-48). -/
def EventType.all : List EventType :=
  [.Read, .Write, .Execute, .Access, .Modify, .Create, .Delete]

/-- The inotify event-mask bits the engine inspects, one Bool per category
(inotify EventMask bits ACCESS, MODIFY, CLOSE_WRITE, CREATE, DELETE,
DELETE_SELF). -/
structure EventMask where
  access : Bool
  modify : Bool
  close_write : Bool
  create : Bool
  delete : Bool
  delete_self : Bool
deriving DecidableEq, Repr

/-- The inotify watch-mask bits the engine may register (same bit set). -/
structure WatchMask where
  access : Bool
  modify : Bool
  close_write : Bool
  create : Bool
  delete : Bool
  delete_self : Bool
deriving DecidableEq, Repr

/-- WatchMask::empty(). -/
def WatchMask.empty : WatchMask :=
  ⟨false, false, false, false, false, false⟩

/-- Bitwise union of two watch masks (the |= operator). -/
def WatchMask.union (a b : WatchMask) : WatchMask :=
  ⟨a.access || b.access, a.modify || b.modify, a.close_write || b.close_write,
   a.create || b.create, a.delete || b.delete, a.delete_self || b.delete_self⟩

/-- Watch-mask contribution of one monitored EventType
(honey_files.rs lines 224-230). -/
def watchMaskFor : EventType → WatchMask
  | .Read => ⟨true, false, false, false, false, false⟩
  | .Access => ⟨true, false, false, false, false, false⟩
  | .Write => ⟨false, true, true, false, false, false⟩
  | .Modify => ⟨false, true, true, false, false, false⟩
  | .Create => ⟨false, false, false, true, false, false⟩
  | .Delete => ⟨false, false, false, false, true, true⟩
  | .Execute => ⟨true, false, false, false, false, false⟩

/-- The mask registered for a config: fold of the per-event contributions
starting from the empty mask (honey_files.rs lines 222-231). -/
def buildWatchMask (events : List EventType) : WatchMask :=
  events.foldl (fun m e => m.union (watchMaskFor e)) WatchMask.empty

/-- Classification of a raw notification mask into an EventType
(honey_files.rs lines 245-255): the if/else-if chain, Access default. -/
def classify (m : EventMask) : EventType :=
  if m.access then .Access
  else if m.modify || m.close_write then .Modify
  else if m.create then .Create
  else if m.delete then .Delete
  else .Access

/-- Configuration for a honey file (honey_files.rs lines 52-59). -/
structure HoneyFileConfig where
  file_path : String
  enabled : Bool
  monitored_events : List EventType
  script_handler : Option String
  description : String
deriving DecidableEq, Repr

/-- A file monitoring event (honey_files.rs lines 132-138).  The timestamp
is supplied by the caller (in the source it is the wall clock at
construction). -/
structure FileEvent where
  file_path : String
  event_type : EventType
  timestamp : Nat
  process_info : Option String
deriving DecidableEq, Repr

/-- A raw inotify notification as the loop sees it: its mask and its
optional name component. -/
structure RawEvent where
  mask : EventMask
  name : Option String
deriving DecidableEq, Repr

/-- Split a character list at every occurrence of the separator. -/
def splitOnChar (sep : Char) : List Char → List (List Char)
  | [] => [[]]
  | c :: rest =>
    let r := splitOnChar sep rest
    if c = sep then [] :: r
    else
      match r with
      | [] => [[c]]
      | h :: t => (c :: h) :: t

/-- Model of Rust's Path::file_name: the last nonempty slash-separated
component of the path, none when there is no such component. -/
def fileNameOf (p : String) : Option (List Char) :=
  ((splitOnChar '/' p.data).filter (fun s => !s.isEmpty)).getLast?

/-- Model of Rust's Path::extension: the part of the file name after its
last dot, none when the file name has no dot or only a leading dot. -/
def extensionOf (p : String) : Option (List Char) :=
  match fileNameOf p with
  | none => none
  | some n =>
    match splitOnChar '.' n with
    | [] => none
    | [_] => none
    | first :: rest =>
      if first.isEmpty && rest.length == 1 then none else rest.getLast?

/-- Oracle for the filesystem facts the handler invoker consults: whether a
path exists, and whether launching the handler yields a successful exit. -/
structure ScriptFS where
  fsExists : String → Bool
  exitOk : String → Bool

/-- Observable behaviour of one handler invocation: skipped silently, or
ran as a child process with the given environment values, `warned` when a
failure was logged. -/
inductive HandlerBehavior where
  | skipped
  | ran (env : List (String × String)) (warned : Bool)
deriving DecidableEq, Repr

/-- The three environment values passed to a handler
(honey_files.rs lines 283-285). -/
def handlerEnv (ev : FileEvent) : List (String × String) :=
  [("HONEY_FILE_PATH", ev.file_path),
   ("HONEY_EVENT_TYPE", ev.event_type.as_str),
   ("HONEY_TIMESTAMP", toString ev.timestamp)]

/-- execute_script_handler (honey_files.rs lines 274-295): early return
when the script does not exist or its extension is not sh; otherwise run
the child, wait, and log a warning exactly when the exit status is not
success. -/
def execute_script_handler (fs : ScriptFS) (script_path : String) (event : FileEvent) :
    HandlerBehavior :=
  let extOk :=
    match extensionOf script_path with
    | some e => e == ['s', 'h']
    | none => false
  if !(fs.fsExists script_path) || !extOk then .skipped
  else .ran (handlerEnv event) (!(fs.exitOk script_path))

/-- Modelled from the spec words (section 4.4): verify the handler exists
and carries the expected executable-script extension; if not, skip
silently; otherwise execute it as a child process with the event context in
its environment, a non-zero exit status logged as a warning. -/
def handlerSpecModel (fs : ScriptFS) (script_path : String) (event : FileEvent) :
    HandlerBehavior :=
  if fs.fsExists script_path = true ∧ extensionOf script_path = some ['s', 'h'] then
    .ran (handlerEnv event) (!(fs.exitOk script_path))
  else .skipped

/-- One observable action of the engine loop: a handler invocation with its
behaviour, or an attempted emission on the channel. -/
inductive EngineAction where
  | handler (script : String) (behavior : HandlerBehavior)
  | send (ev : FileEvent)
deriving DecidableEq, Repr

/-- Processing of one named raw notification (honey_files.rs lines
244-268): build the FileEvent from the bare name and the classified type,
invoke the handler of the first config whose file name matches the event
path's file name (when that config has one), then attempt the send. -/
def processEvent (fs : ScriptFS) (configs : List HoneyFileConfig) (ts : Nat)
    (mask : EventMask) (n : String) : List EngineAction :=
  let fe : FileEvent := ⟨n, classify mask, ts, none⟩
  let hacts :=
    match configs.find? (fun c => fileNameOf c.file_path == fileNameOf n) with
    | some c =>
      match c.script_handler with
      | some sp => [EngineAction.handler sp (execute_script_handler fs sp fe)]
      | none => []
    | none => []
  hacts ++ [EngineAction.send fe]

/-- The inner for loop over one batch of notifications (honey_files.rs
lines 242-270).  Unnamed notifications are skipped.  After a named one the
loop continues only while the channel is open: a failed send breaks out of
the batch. -/
def runBatch (fs : ScriptFS) (configs : List HoneyFileConfig) (ts : Nat)
    (chanOpen : Bool) : List RawEvent → List EngineAction
  | [] => []
  | ev :: rest =>
    match ev.name with
    | none => runBatch fs configs ts chanOpen rest
    | some n =>
      processEvent fs configs ts ev.mask n ++
        (if chanOpen then runBatch fs configs ts chanOpen rest else [])

/-- The outer blocking loop (honey_files.rs lines 239-271) over the finite
list of batches the OS delivers: every batch is handed to the inner loop,
whatever the channel state, because the break on a failed send leaves only
the inner for loop. -/
def monitorTrace (fs : ScriptFS) (configs : List HoneyFileConfig) (ts : Nat)
    (chanOpen : Bool) (batches : List (List RawEvent)) : List EngineAction :=
  (batches.map (runBatch fs configs ts chanOpen)).flatten

/-- The FileEvents of the attempted sends in a trace, in order. -/
def sendsOf (acts : List EngineAction) : List FileEvent :=
  acts.filterMap (fun a =>
    match a with
    | .send fe => some fe
    | _ => none)

/-- The FileEvents a batch should yield: one per named notification, in
order, built from the bare name and the classified mask. -/
def expectedEvents (ts : Nat) (evs : List RawEvent) : List FileEvent :=
  evs.filterMap (fun ev => ev.name.map (fun n => ⟨n, classify ev.mask, ts, none⟩))

/-- The spec's classification precedence table (section 4.3): Access, then
Modify covering the generic modify signal and the close-after-write signal,
then Create, then Delete. -/
def precedenceTable : List ((EventMask → Bool) × EventType) :=
  [(fun m => m.access, .Access),
   (fun m => m.modify || m.close_write, .Modify),
   (fun m => m.create, .Create),
   (fun m => m.delete, .Delete)]

/-- First matching entry of the precedence table for a mask. -/
def firstMatch (m : EventMask) : Option EventType :=
  (precedenceTable.find? (fun p => p.1 m)).map (fun p => p.2)

/-- The GUI event-checkbox mutation (gui.rs lines 500-507): checking pushes
the event type unless already present, unchecking retains only the other
event types. -/
def setMonitored (checked : Bool) (e : EventType) (xs : List EventType) :
    List EventType :=
  if checked then (if e ∈ xs then xs else xs ++ [e])
  else xs.filter (fun x => x != e)

/-- A sequence of checkbox mutations applied in order. -/
def applyToggles (xs : List EventType) (ops : List (Bool × EventType)) :
    List EventType :=
  ops.foldl (fun s op => setMonitored op.1 op.2 s) xs

/-- The registry of the monitor: a map from path to config, modelled as an
association list with upsert semantics (honey_files.rs lines 157-186). -/
structure HoneyFileMonitor where
  configs : List (String × HoneyFileConfig)
deriving DecidableEq, Repr

/-- add_file: insert or replace by path (honey_files.rs lines 172-174). -/
def HoneyFileMonitor.add_file (m : HoneyFileMonitor) (c : HoneyFileConfig) :
    HoneyFileMonitor :=
  ⟨m.configs.filter (fun kv => kv.1 != c.file_path) ++ [(c.file_path, c)]⟩

/-- remove_file (honey_files.rs lines 176-178). -/
def HoneyFileMonitor.remove_file (m : HoneyFileMonitor) (p : String) :
    HoneyFileMonitor :=
  ⟨m.configs.filter (fun kv => kv.1 != p)⟩

/-- The snapshot start_monitoring hands the spawned engine: the enabled
configs of the registry, cloned (honey_files.rs lines 191-194). -/
def startSnapshot (m : HoneyFileMonitor) : List HoneyFileConfig :=
  (m.configs.map Prod.snd).filter (fun c => c.enabled)

/-- Registry plus the config list held by a running engine, none when no
engine was started. -/
structure MonitorSystem where
  registry : HoneyFileMonitor
  engineConfigs : Option (List HoneyFileConfig)
deriving DecidableEq, Repr

/-- start_monitoring (honey_files.rs lines 189-204): the engine is spawned
with the snapshot of the currently enabled configs. -/
def start_monitoring (s : MonitorSystem) : MonitorSystem :=
  { s with engineConfigs := some (startSnapshot s.registry) }

/-- A mutation of the registry available through the monitor's API: add a
config, remove one, or flip the enabled flag of one in place. -/
inductive RegistryOp where
  | add (c : HoneyFileConfig)
  | remove (p : String)
  | set_enabled (p : String) (b : Bool)
deriving Repr

/-- Apply one registry mutation; the engine's snapshot is not part of the
registry and is untouched. -/
def applyOp (s : MonitorSystem) (op : RegistryOp) : MonitorSystem :=
  match op with
  | .add c => { s with registry := s.registry.add_file c }
  | .remove p => { s with registry := s.registry.remove_file p }
  | .set_enabled p b =>
    { s with registry :=
        ⟨s.registry.configs.map (fun kv =>
          if kv.1 == p then (kv.1, { kv.2 with enabled := b }) else kv)⟩ }

/-- A filesystem oracle in which nothing exists and every launch fails. -/
def trivialFS : ScriptFS :=
  ⟨fun _ => false, fun _ => false⟩

/-- A filesystem oracle in which every script exists but always exits
non-zero. -/
def failFS : ScriptFS :=
  ⟨fun _ => true, fun _ => false⟩

/-- The sample config for /tmp/t.cfg with no handler. -/
def cfgT : HoneyFileConfig :=
  ⟨"/tmp/t.cfg", true, [.Write, .Modify], none, "Monitor /tmp/t.cfg"⟩

/-- The sample config for /tmp/t.cfg whose handler is /tmp/h.sh. -/
def cfgH : HoneyFileConfig :=
  ⟨"/tmp/t.cfg", true, [.Write, .Modify], some "/tmp/h.sh", "Monitor /tmp/t.cfg"⟩

/-- A mask with only the modify bit set. -/
def modifyMask : EventMask :=
  ⟨false, true, false, false, false, false⟩

/-- A mask with both the access and the modify bits set. -/
def accessModifyMask : EventMask :=
  ⟨true, true, false, false, false, false⟩

/-- A mask with only the delete-self bit set. -/
def deleteSelfMask : EventMask :=
  ⟨false, false, false, false, false, true⟩

/-- A modify notification named t.cfg. -/
def evT : RawEvent :=
  ⟨modifyMask, some "t.cfg"⟩

/-- C8: EventType.all contains every variant exactly once, in its fixed
declaration order, and as_str assigns pairwise distinct labels, so that the
total label function is injective. -/
theorem eventType_all_once_as_str_injective :
    (∀ e : EventType, EventType.all.count e = 1) ∧
    (EventType.all.map EventType.as_str).Nodup := by
  constructor
  · intro e
    cases e <;> rfl
  · decide

/-- Attempted sends distribute over trace concatenation. -/
theorem sendsOf_append (a b : List EngineAction) :
    sendsOf (a ++ b) = sendsOf a ++ sendsOf b :=
  List.filterMap_append ..

/-- A named notification contributes exactly one attempted send, carrying
the bare name and the classified event type. -/
theorem sendsOf_processEvent (fs : ScriptFS) (configs : List HoneyFileConfig)
    (ts : Nat) (mask : EventMask) (n : String) :
    sendsOf (processEvent fs configs ts mask n) = [⟨n, classify mask, ts, none⟩] := by
  simp only [processEvent]
  cases hf : configs.find? (fun c => fileNameOf c.file_path == fileNameOf n) with
  | none => simp [sendsOf]
  | some c =>
    cases hs : c.script_handler with
    | none => simp [sendsOf, hs]
    | some sp => simp [sendsOf, hs]

/-- With an open channel the inner loop sends one FileEvent per named
notification, in notification order, independently of the handler oracle. -/
theorem sendsOf_runBatch_open (fs : ScriptFS) (configs : List HoneyFileConfig)
    (ts : Nat) : ∀ evs : List RawEvent,
    sendsOf (runBatch fs configs ts true evs) = expectedEvents ts evs := by
  intro evs
  induction evs with
  | nil => rfl
  | cons ev rest ih =>
    rcases ev with ⟨mask, name⟩
    cases name with
    | none =>
      simpa [runBatch, expectedEvents, List.filterMap_cons] using ih
    | some n =>
      simp [runBatch, expectedEvents, List.filterMap_cons, sendsOf_append,
        sendsOf_processEvent]
      simpa [expectedEvents] using ih

/-- One checkbox mutation preserves the no-duplicates invariant. -/
theorem setMonitored_nodup (b : Bool) (e : EventType) (xs : List EventType)
    (h : xs.Nodup) : (setMonitored b e xs).Nodup := by
  cases b with
  | false => exact h.filter _
  | true =>
    by_cases he : e ∈ xs
    · simpa [setMonitored, he] using h
    · simp only [setMonitored, if_pos rfl, if_neg he]
      simp [List.nodup_append, h, he]

/-- Any sequence of checkbox mutations preserves the no-duplicates
invariant. -/
theorem applyToggles_nodup : ∀ (ops : List (Bool × EventType))
    (xs : List EventType), xs.Nodup → (applyToggles xs ops).Nodup := by
  intro ops
  induction ops with
  | nil => intro xs h; exact h
  | cons op rest ih =>
    intro xs h
    exact ih (setMonitored op.1 op.2 xs) (setMonitored_nodup op.1 op.2 xs h)

/-- Registry mutations never touch the engine's snapshot field. -/
theorem foldl_applyOp_engine : ∀ (ops : List RegistryOp) (s : MonitorSystem),
    (ops.foldl applyOp s).engineConfigs = s.engineConfigs := by
  intro ops
  induction ops with
  | nil => intro s; rfl
  | cons op rest ih =>
    intro s
    rw [List.foldl_cons, ih]
    cases op <;> rfl

/-- C1: the claim states that once the receiving end of the channel has
been dropped, the engine returns after its next failed emission and
executes no further loop iterations.  The code's break on a failed send
leaves only the inner for loop, so the outer blocking loop keeps running:
with the channel closed from the start, the inner loop over one batch does
stop after its first attempted send, but a second delivered batch is still
processed and produces another attempted send. -/
theorem c1_loop_continues_after_disconnect :
    (sendsOf (runBatch trivialFS [cfgT] 0 false [evT, evT])).length = 1 ∧
    (sendsOf (monitorTrace trivialFS [cfgT] 0 false [[evT], [evT]])).length = 2 :=
  ⟨rfl, rfl⟩

/-- C2 counterexample: a raw notification whose mask carries both the
generic access bit and the modify bit yields exactly one FileEvent, but it
is classified Access, not Modify, because the access bit is tested first. -/
theorem c2_counterexample_access_modify_is_access :
    sendsOf (processEvent trivialFS [] 0 accessModifyMask "t.cfg") =
      [⟨"t.cfg", EventType.Access, 0, none⟩] ∧
    EventType.Access ≠ EventType.Modify :=
  ⟨rfl, by decide⟩

/-- C2 amended: for a raw notification whose category bitmask contains both
the generic access category and the modify category, the engine emits
exactly one FileEvent, and its event_type is Access (the first match of the
precedence order). -/
theorem c2_amended_access_modify_one_access_event
    (fs : ScriptFS) (configs : List HoneyFileConfig) (ts : Nat) (n : String)
    (mask : EventMask) (ha : mask.access = true) (hm : mask.modify = true) :
    sendsOf (processEvent fs configs ts mask n) = [⟨n, EventType.Access, ts, none⟩] := by
  rw [sendsOf_processEvent]
  simp [classify, ha]

/-- C2 witness: the amended claim at the access-plus-modify mask. -/
theorem c2_amended_witness :
    sendsOf (processEvent trivialFS [] 0 accessModifyMask "t.cfg") =
      [⟨"t.cfg", EventType.Access, 0, none⟩] :=
  c2_amended_access_modify_one_access_event trivialFS [] 0 "t.cfg"
    accessModifyMask rfl rfl

/-- C3: a processed named notification yields exactly one FileEvent; its
event type is the first match of the precedence order Access, Modify
(generic modify or close-after-write), Create, Delete; a single raw
notification never yields more than one attempted send; and Execute is
approximated by the access watch category. -/
theorem c3_classification_precedence_single_event
    (fs : ScriptFS) (configs : List HoneyFileConfig) (ts : Nat) (n : String)
    (chanOpen : Bool) (mask : EventMask) (t : EventType)
    (hfm : firstMatch mask = some t) :
    classify mask = t ∧
    sendsOf (processEvent fs configs ts mask n) = [⟨n, classify mask, ts, none⟩] ∧
    (∀ ev : RawEvent, (sendsOf (runBatch fs configs ts chanOpen [ev])).length ≤ 1) ∧
    buildWatchMask [EventType.Execute] = buildWatchMask [EventType.Access] := by
  refine ⟨?_, sendsOf_processEvent .., ?_, rfl⟩
  · revert hfm
    revert t
    rcases mask with ⟨a, m, cw, c, d, ds⟩
    cases a <;> cases m <;> cases cw <;> cases c <;> cases d <;> cases ds <;> decide
  · intro ev
    rcases ev with ⟨mask2, name⟩
    cases name with
    | none => simp [runBatch, sendsOf]
    | some nm =>
      cases chanOpen <;> simp [runBatch, sendsOf_append, sendsOf_processEvent]

/-- C3 witness: the precedence hypothesis holds at the modify-only mask. -/
theorem c3_witness : classify modifyMask = EventType.Modify :=
  (c3_classification_precedence_single_event trivialFS [cfgT] 7 "t.cfg" true
    modifyMask EventType.Modify (by decide)).1

/-- C4: when the first config whose file name matches the event's file name
has a configured handler, the engine invokes the handler synchronously
before the attempted send, and with an open channel the delivered
FileEvents of a batch are exactly one per named notification, in order,
independently of the handler oracle (so a handler that always exits
non-zero does not prevent or reorder delivery). -/
theorem c4_handler_before_send_and_isolated
    (fs fs2 : ScriptFS) (configs : List HoneyFileConfig) (ts : Nat)
    (mask : EventMask) (n : String) (c : HoneyFileConfig) (sp : String)
    (hfind : configs.find? (fun cc => fileNameOf cc.file_path == fileNameOf n) = some c)
    (hsp : c.script_handler = some sp) :
    processEvent fs configs ts mask n =
      [EngineAction.handler sp
        (execute_script_handler fs sp ⟨n, classify mask, ts, none⟩),
       EngineAction.send ⟨n, classify mask, ts, none⟩] ∧
    (∀ evs : List RawEvent,
      sendsOf (runBatch fs configs ts true evs) = expectedEvents ts evs ∧
      sendsOf (runBatch fs2 configs ts true evs) = expectedEvents ts evs) := by
  constructor
  · simp only [processEvent]
    rw [hfind]
    simp [hsp]
  · intro evs
    exact ⟨sendsOf_runBatch_open fs configs ts evs,
           sendsOf_runBatch_open fs2 configs ts evs⟩

/-- C4 witness: two modify notifications for t.cfg, whose config's handler
exists but always exits non-zero, still yield the handler invocation before
the send and two delivered FileEvents in order. -/
theorem c4_witness :
    processEvent failFS [cfgH] 5 modifyMask "t.cfg" =
      [EngineAction.handler "/tmp/h.sh"
        (execute_script_handler failFS "/tmp/h.sh" ⟨"t.cfg", classify modifyMask, 5, none⟩),
       EngineAction.send ⟨"t.cfg", classify modifyMask, 5, none⟩] ∧
    sendsOf (runBatch failFS [cfgH] 5 true [evT, evT]) = expectedEvents 5 [evT, evT] :=
  ⟨(c4_handler_before_send_and_isolated failFS trivialFS [cfgH] 5 modifyMask
      "t.cfg" cfgH "/tmp/h.sh" rfl rfl).1,
   ((c4_handler_before_send_and_isolated failFS trivialFS [cfgH] 5 modifyMask
      "t.cfg" cfgH "/tmp/h.sh" rfl rfl).2 [evT, evT]).1⟩

/-- C5: start_monitoring hands the engine the snapshot of exactly the
registry entries enabled at call time, and registry mutations applied
afterwards (add, remove, enable/disable) never change the running engine's
config list. -/
theorem c5_snapshot_enabled_and_insulated
    (s : MonitorSystem) (ops : List RegistryOp) (c : HoneyFileConfig) :
    (start_monitoring s).engineConfigs = some (startSnapshot s.registry) ∧
    (c ∈ startSnapshot s.registry ↔
      c ∈ s.registry.configs.map Prod.snd ∧ c.enabled = true) ∧
    (ops.foldl applyOp (start_monitoring s)).engineConfigs =
      (start_monitoring s).engineConfigs := by
  refine ⟨rfl, ?_, foldl_applyOp_engine ops _⟩
  simp [startSnapshot, List.mem_filter]

/-- C6: the handler invoker skips silently unless the handler exists and
carries the sh extension, and otherwise runs the child with exactly the
three environment values path, event-type label, and string-encoded
timestamp; the invoker agrees with the spec-side model everywhere. -/
theorem c6_handler_invoker_matches_contract
    (fs : ScriptFS) (sp : String) (ev : FileEvent) :
    execute_script_handler fs sp ev = handlerSpecModel fs sp ev ∧
    handlerEnv ev =
      [("HONEY_FILE_PATH", ev.file_path),
       ("HONEY_EVENT_TYPE", ev.event_type.as_str),
       ("HONEY_TIMESTAMP", toString ev.timestamp)] := by
  refine ⟨?_, rfl⟩
  unfold execute_script_handler handlerSpecModel
  cases hex : fs.fsExists sp with
  | false => simp [hex]
  | true =>
    cases hext : extensionOf sp with
    | none => simp [hext]
    | some e =>
      by_cases he : e = ['s', 'h'] <;> simp [hext, he]

/-- C7: a raw notification with no name component is skipped entirely (no
handler invocation, no attempted send), and a named one yields exactly one
FileEvent whose path is the bare name component, never rejoined with the
registered watch path. -/
theorem c7_name_component_gates_emission
    (fs : ScriptFS) (configs : List HoneyFileConfig) (ts : Nat)
    (chanOpen : Bool) (mask : EventMask) (n : String) :
    runBatch fs configs ts chanOpen [⟨mask, none⟩] = [] ∧
    sendsOf (processEvent fs configs ts mask n) = [⟨n, classify mask, ts, none⟩] :=
  ⟨rfl, sendsOf_processEvent ..⟩

/-- C9: starting from a duplicate-free monitored_events list, toggling an
absent EventType on and then off restores the original list, and no
sequence of checkbox toggles ever produces a duplicate entry. -/
theorem c9_toggle_roundtrip_no_duplicates (e : EventType)
    (xs : List EventType) (hnd : xs.Nodup) :
    (e ∉ xs → setMonitored false e (setMonitored true e xs) = xs) ∧
    (∀ ops : List (Bool × EventType), (applyToggles xs ops).Nodup) := by
  constructor
  · intro he
    have h1 : setMonitored true e xs = xs ++ [e] := by
      simp [setMonitored, he]
    rw [h1]
    simp only [setMonitored, if_neg (by simp : ¬False = True)]
    rw [List.filter_append]
    have h2 : xs.filter (fun x => x != e) = xs := by
      apply List.filter_eq_self.mpr
      intro a ha
      simp only [bne_iff_ne, ne_eq, decide_eq_true_eq]
      intro heq
      exact he (heq ▸ ha)
    simp [h2]
  · intro ops
    exact applyToggles_nodup ops xs hnd

/-- C9 witness: toggling Create on then off over the default Write, Modify
set restores it, and a toggle sequence keeps the list duplicate-free. -/
theorem c9_witness :
    (setMonitored false EventType.Create
      (setMonitored true EventType.Create [EventType.Write, EventType.Modify]) =
      [EventType.Write, EventType.Modify]) ∧
    (applyToggles [EventType.Write, EventType.Modify]
      [(true, EventType.Access), (false, EventType.Write)]).Nodup := by
  have h := c9_toggle_roundtrip_no_duplicates EventType.Create
    [EventType.Write, EventType.Modify] (by decide)
  exact ⟨h.1 (by decide), h.2 _⟩

/-- C10: classification is total with Access as the default: a named
notification whose mask contains none of the access, modify,
close-after-write, create, or delete bits is still classified and emitted
as a single Access FileEvent. -/
theorem c10_default_access_total
    (fs : ScriptFS) (configs : List HoneyFileConfig) (ts : Nat) (n : String)
    (mask : EventMask) (ha : mask.access = false) (hm : mask.modify = false)
    (hcw : mask.close_write = false) (hc : mask.create = false)
    (hd : mask.delete = false) :
    classify mask = EventType.Access ∧
    sendsOf (processEvent fs configs ts mask n) = [⟨n, EventType.Access, ts, none⟩] := by
  have hcl : classify mask = EventType.Access := by
    simp [classify, ha, hm, hcw, hc, hd]
  exact ⟨hcl, by rw [sendsOf_processEvent, hcl]⟩

/-- C10 witness: the delete-self-only mask is classified and emitted as
Access. -/
theorem c10_witness :
    classify deleteSelfMask = EventType.Access ∧
    sendsOf (processEvent trivialFS [cfgT] 3 deleteSelfMask "t.cfg") =
      [⟨"t.cfg", EventType.Access, 3, none⟩] :=
  c10_default_access_total trivialFS [cfgT] 3 "t.cfg" deleteSelfMask
    rfl rfl rfl rfl rfl
